import Mathlib

/-!
A shallow embedding of the iNaturalist species-observation downloader
(`inat-download-new-species-sightings.py`) together with proofs about its
observation-to-record pipeline: pagination, record normalization, photo
filename derivation, comment synthesis, row splitting, CSV column layout
and the interactive review page's checkbox defaults.

Python strings are modelled as `List Char`; Python `None`-able values as
`Option`; dictionaries from the API as structures whose optional keys are
`Option` fields.  Network effects (photo downloads, page fetches) are
modelled by explicit oracles passed as arguments.
-/

namespace INat

/-- Python strings are modelled as lists of characters. -/
abbrev Str := List Char

/-- Characters stripped by Python's `str.strip()` (ASCII whitespace). -/
def isPySpace (c : Char) : Bool :=
  c == ' ' || c == '\t' || c == '\n' || c == '\r' || c == '\x0b' || c == '\x0c'

/-- Python's `s.strip()`: remove leading and trailing whitespace. -/
def pyStrip (l : Str) : Str :=
  ((l.dropWhile isPySpace).reverse.dropWhile isPySpace).reverse

/-- Python's `s.split(c)` for a one-character separator: the list of chunks
between occurrences of `c`.  Never returns `[]`; splitting the empty string
yields `[[]]`, matching `''.split(c) == ['']`. -/
def splitOnChar (c : Char) : Str → List Str
  | [] => [[]]
  | a :: rest =>
    let r := splitOnChar c rest
    if a = c then [] :: r
    else (a :: r.headI) :: r.tail

/-- Helper for `splitWs`: accumulates the current (reversed) word. -/
def splitWsAux (cur : Str) : Str → List Str
  | [] => if cur = [] then [] else [cur.reverse]
  | c :: rest =>
    if isPySpace c then
      if cur = [] then splitWsAux [] rest
      else cur.reverse :: splitWsAux [] rest
    else splitWsAux (c :: cur) rest

/-- Python's `s.split()` with no argument: split on whitespace runs,
dropping empty chunks. -/
def splitWs (l : Str) : List Str := splitWsAux [] l

/-- Recursion core of `replaceAll`, structurally recursive on a fuel that
bounds the input length (each step consumes at least one character, so the
fuel is never exhausted when initialized to the length). -/
def replaceAllFuel (pat rep : Str) : Nat → Str → Str
  | 0, l => l
  | _ + 1, [] => []
  | fuel + 1, c :: rest =>
    if pat ≠ [] ∧ pat.isPrefixOf (c :: rest) then
      rep ++ replaceAllFuel pat rep fuel ((c :: rest).drop pat.length)
    else
      c :: replaceAllFuel pat rep fuel rest

/-- Python's `s.replace(pat, rep)`: replace every (non-overlapping,
left-to-right) occurrence of `pat` by `rep`.  (The script only ever calls
this with the literal pattern `"square"`, so the empty pattern never
arises.) -/
def replaceAll (pat rep l : Str) : Str := replaceAllFuel pat rep l.length l

/-- Decimal rendering of a natural number, as a character list. -/
def natStr (n : Nat) : Str := (Nat.repr n).toList

/- ### Basic lemmas about the string helpers -/

theorem splitOnChar_ne_nil (c : Char) (l : Str) : splitOnChar c l ≠ [] := by
  cases l with
  | nil => simp [splitOnChar]
  | cons a rest =>
    simp only [splitOnChar]
    split <;> simp

theorem splitOnChar_headI (c : Char) (l : Str) :
    (splitOnChar c l).headI = l.takeWhile (fun x => x ≠ c) := by
  induction l with
  | nil => simp [splitOnChar]
  | cons a rest ih =>
    by_cases h : a = c
    · subst h
      simp [splitOnChar, List.takeWhile_cons]
    · have hd : decide (a ≠ c) = true := by simp [h]
      simp only [splitOnChar, if_neg h, List.takeWhile_cons, hd, if_true]
      simp only [List.headI]
      exact congrArg (a :: ·) ih

theorem splitOnChar_of_not_mem (c : Char) (l : Str) (h : c ∉ l) :
    splitOnChar c l = [l] := by
  induction l with
  | nil => simp [splitOnChar]
  | cons a rest ih =>
    simp only [List.mem_cons, not_or] at h
    simp only [splitOnChar]
    rw [if_neg (fun hac => h.1 hac.symm), ih h.2]
    simp

theorem splitOnChar_append (c : Char) (l1 l2 : Str) :
    splitOnChar c (l1 ++ c :: l2) = splitOnChar c l1 ++ splitOnChar c l2 := by
  induction l1 with
  | nil => simp [splitOnChar]
  | cons a rest ih =>
    by_cases h : a = c
    · subst h
      simp [splitOnChar, List.append_eq, ih]
    · obtain ⟨x, xs, hx⟩ : ∃ x xs, splitOnChar c rest = x :: xs := by
        cases hr : splitOnChar c rest with
        | nil => exact absurd hr (splitOnChar_ne_nil c rest)
        | cons x xs => exact ⟨x, xs, rfl⟩
      simp [splitOnChar, h, List.append_eq, ih, hx]

theorem splitOnChar_getLastD_of_suffix (c : Char) (l1 l2 : Str) (h : c ∉ l2) :
    (splitOnChar c (l1 ++ c :: l2)).getLastD [] = l2 := by
  rw [splitOnChar_append, splitOnChar_of_not_mem c l2 h]
  exact List.getLastD_concat _ _ _

theorem splitOnChar_getLastD_of_not_mem (c : Char) (l : Str) (h : c ∉ l) :
    (splitOnChar c l).getLastD [] = l := by
  rw [splitOnChar_of_not_mem c l h]
  rfl

/- ### Data model

API-supplied structures.  Keys that `obs.get(...)` may find absent (or
`null`) are `Option` fields; keys fetched with a default collapse absent
and `null` to that default when the two are indistinguishable downstream
(e.g. a photo's `license_code`, where both are falsy). -/

/-- A nested photo descriptor: `photo.get('url', '')` and
`photo.get('license_code', '')`; an absent or null code behaves exactly
like the empty string everywhere it is used, so both are `[]` here. -/
structure Photo where
  url : Str
  license_code : Str
deriving Repr, DecidableEq

/-- A nested controlled-vocabulary tag on an observation, with possibly
null value and attribute codes. -/
structure Annot where
  controlled_value_id : Option Nat
  controlled_attribute_id : Option Nat
deriving Repr, DecidableEq

/-- Nested taxon info: `taxon.get('name', ...)` and
`taxon.get('preferred_common_name', '')`. -/
structure TaxonInfo where
  name : Option Str
  preferred_common_name : Option Str
deriving Repr, DecidableEq

/-- A raw observation as returned by the API.  `geojson` is the
coordinates array of the geojson object when that object is a dict with a
coordinate list (else `none`); `annots` is the annotation list (`[]` when
absent, which the scan treats identically); `user_login` is the observer's
login when the user dict is present. -/
structure Obs where
  id : Nat
  observed_on : Option Str
  location : Option Str
  geojson : Option (List Str)
  place_guess : Str
  user_login : Option Str
  quality_grade : Option Str
  taxon : Option TaxonInfo
  annots : List Annot
  project_ids : List Nat
  photos : List Photo
deriving Repr, DecidableEq

/-- The configuration the normalizer reads from the downloader object:
the species name being processed, today's date string, the optional
caller-supplied location and submitter identifiers, and the row-splitting
toggle. -/
structure Config where
  speciesName : Str
  todayDate : Str
  locationId : Option Str
  submitterId : Option Str
  socialSplit : Bool
deriving Repr

/-- One normalized output record, mirroring the row dict built by
`process_observations` (the `_photo_list`/`_license_list` temporaries are
`photoList`/`licenseList`). -/
structure Row where
  observation_id : Nat
  observed_on : Str
  year : Option Str
  month : Option Str
  day : Option Str
  scientific_name : Str
  genus : Option Str
  specificEpithet : Option Str
  common_name : Str
  decimalLatitude : Option Str
  decimalLongitude : Option Str
  verbatimLocality : Str
  locationID : Option Str
  livingStatus : Str
  submitterID : Option Str
  state : Str
  sightingID : Option Str
  observer : Str
  quality_grade : Str
  url : Str
  researcherComments : Str
  photo_count : Nat
  photo_filenames : Str
  photoList : List Str
  licenseList : List Str
  hasNonOrganismEvidence : Bool
  isSkullsAndBones : Bool
deriving Repr, DecidableEq

/- ### Record normalizer (`process_observations`) -/

/-- The geojson fallback: when the coordinate array is non-empty with at
least two elements, element 0 is the longitude and element 1 the latitude.
Returns `(latitude, longitude)`. -/
def geoFallback (geojson : Option (List Str)) : Option Str × Option Str :=
  match geojson with
  | some coords =>
    if coords ≠ [] ∧ 2 ≤ coords.length then (coords[1]?, coords[0]?)
    else (none, none)
  | none => (none, none)

/-- Location extraction: a non-empty combined `location` string is split
on a comma, part 0 (stripped) is the latitude, part 1 (stripped, when
present) the longitude; a missing or empty string falls through to the
geojson coordinates.  Returns `(latitude, longitude)`. -/
def extractLocation (location : Option Str) (geojson : Option (List Str)) :
    Option Str × Option Str :=
  match location with
  | some s =>
    if s ≠ [] then
      let parts := splitOnChar ',' s
      (parts[0]?.map pyStrip, parts[1]?.map pyStrip)
    else geoFallback geojson
  | none => geoFallback geojson

/-- One step of the annotation scan: value code 19 sets living status to
dead, 14 to alive; on the evidence-of-presence attribute (22), value 24
marks single-subject and any other non-null value marks non-organism
evidence. -/
def annotStep (st : Str × Bool × Bool) (a : Annot) : Str × Bool × Bool :=
  let living :=
    if a.controlled_value_id = some 19 then "dead".toList
    else if a.controlled_value_id = some 14 then "alive".toList
    else st.1
  let flags :=
    if a.controlled_attribute_id = some 22 then
      if a.controlled_value_id = some 24 then (true, st.2.2)
      else if a.controlled_value_id ≠ none then (st.2.1, true)
      else (st.2.1, st.2.2)
    else (st.2.1, st.2.2)
  (living, flags.1, flags.2)

/-- The single scan over the annotation list, returning
`(living_status, is_single_subject, has_non_organism_evidence)` with
defaults `("alive", false, false)`. -/
def scanAnnots (l : List Annot) : Str × Bool × Bool :=
  l.foldl annotStep ("alive".toList, false, false)

/-- The canonical observation URL. -/
def obsUrlOf (obsId : Nat) : Str :=
  "https://www.inaturalist.org/observations/".toList ++ natStr obsId

/-- `photo_url.split('.')[-1].split('?')[0]`. -/
def photoExtRaw (url : Str) : Str :=
  (splitOnChar '?' ((splitOnChar '.' url).getLastD [])).headI

/-- The derived photo extension with the validity fallback: an extension
containing a slash or longer than 4 characters becomes `jpg`. -/
def photoExt (url : Str) : Str :=
  let e := photoExtRaw url
  if '/' ∈ e ∨ 4 < e.length then "jpg".toList else e

/-- The saved photo filename `{obs_id}_{photo_idx}.{ext}`. -/
def photoFilename (obsId photoIdx : Nat) (url : Str) : Str :=
  natStr obsId ++ '_' :: natStr photoIdx ++ '.' :: photoExt url

/-- The download URL: the size token `square` upgraded to `original`. -/
def downloadUrl (p : Photo) : Str :=
  replaceAll "square".toList "original".toList p.url

/-- Photo processing: for each photo (1-based index) attempt the download
via the oracle `dl url filename`; successes contribute their
`(filename, license_code)` pair in encounter order, failures are dropped. -/
def photoPairs (dl : Str → Str → Bool) (obsId : Nat) (photos : List Photo) :
    List (Str × Str) :=
  photos.enum.filterMap (fun ip =>
    let u := downloadUrl ip.2
    let fname := photoFilename obsId (ip.1 + 1) u
    if dl u fname then some (fname, ip.2.license_code) else none)

/-- The fixed-format head of the researcher comment. -/
def commentBase (today obsUrl : Str) : Str :=
  "Observation downloaded from iNaturalist on ".toList ++ today
    ++ ".<br>Source: ".toList ++ obsUrl

/-- Full comment synthesis: when the license list is non-empty, append
either the deduplicated comma-joined non-empty codes or the copyright
notice; an empty license list appends nothing. -/
def commentOf (today obsUrl : Str) (licenses : List Str) : Str :=
  let base := commentBase today obsUrl
  if licenses ≠ [] then
    let uniq := (licenses.filter (fun lc => lc ≠ [])).dedup
    if uniq ≠ [] then
      base ++ "<br>License(s): ".toList ++ List.intercalate ", ".toList uniq
    else
      base ++ "<br>License: None specified. Copyright applies.".toList
  else base

/-- Collapse a falsy caller-supplied identifier to `None`
(`self.location_id if self.location_id else None`). -/
def optId (v : Option Str) : Option Str :=
  match v with
  | some l => if l ≠ [] then some l else none
  | none => none

/-- The whole-observation output row (the non-splitting branch of
`process_observations`): all acquired photos on one row, with a sighting
identifier only under row-splitting with at least one photo.  `uuid`
stands for the fresh identifier `uuid.uuid4()` mints for this
observation. -/
def mainRow (cfg : Config) (dl : Str → Str → Bool) (uuid : Str) (obs : Obs) :
    Row :=
  let observedOn := obs.observed_on.getD "Unknown".toList
  let loc := extractLocation obs.location obs.geojson
  let observer := obs.user_login.getD "Unknown".toList
  let qualityGrade := obs.quality_grade.getD "Unknown".toList
  let obsUrl := obsUrlOf obs.id
  let scientificName :=
    match obs.taxon with
    | some t => t.name.getD cfg.speciesName
    | none => cfg.speciesName
  let commonName :=
    match obs.taxon with
    | some t => t.preferred_common_name.getD []
    | none => []
  let dateParts :=
    if observedOn ≠ [] ∧ observedOn ≠ "Unknown".toList then
      let dp := splitOnChar '-' observedOn
      if 3 ≤ dp.length then (dp[0]?, dp[1]?, dp[2]?)
      else (none, none, none)
    else (none, none, none)
  let nameSplit :=
    if scientificName ≠ [] then
      let np := splitWs scientificName
      (np[0]?, np[1]?)
    else (none, none)
  let scan := scanAnnots obs.annots
  let isSkulls := obs.project_ids.contains 488
  let pairs := photoPairs dl obs.id obs.photos
  let photoFilenames := pairs.map Prod.fst
  let photoLicenses := pairs.map Prod.snd
  let researcherComments := commentOf cfg.todayDate obsUrl photoLicenses
  { observation_id := obs.id
    observed_on := observedOn
    year := dateParts.1
    month := dateParts.2.1
    day := dateParts.2.2
    scientific_name := scientificName
    genus := nameSplit.1
    specificEpithet := nameSplit.2
    common_name := commonName
    decimalLatitude := loc.1
    decimalLongitude := loc.2
    verbatimLocality := obs.place_guess
    locationID := optId cfg.locationId
    livingStatus := scan.1
    submitterID := optId cfg.submitterId
    state := "unapproved".toList
    sightingID :=
      if cfg.socialSplit ∧ 1 ≤ photoFilenames.length then some uuid else none
    observer := observer
    quality_grade := qualityGrade
    url := obsUrl
    researcherComments := researcherComments
    photo_count := photoFilenames.length
    photo_filenames := List.intercalate "; ".toList photoFilenames
    photoList := photoFilenames
    licenseList := photoLicenses
    hasNonOrganismEvidence := scan.2.2
    isSkullsAndBones := isSkulls }

/-- One per-photo output row of the row-splitting branch: the same
observation-level fields, but exactly the one photo/license pair `fl` and
the observation's shared fresh sighting identifier. -/
def splitRow (cfg : Config) (dl : Str → Str → Bool) (uuid : Str) (obs : Obs)
    (fl : Str × Str) : Row :=
  { mainRow cfg dl uuid obs with
      sightingID := some uuid
      photo_count := 1
      photo_filenames := fl.1
      photoList := [fl.1]
      licenseList := [fl.2] }

/-- Normalize one raw observation into its list of output rows: one row
per acquired photo when row-splitting is enabled, the observation has more
than one acquired photo and is not single-subject; otherwise one row for
the whole observation. -/
def processOne (cfg : Config) (dl : Str → Str → Bool) (uuid : Str) (obs : Obs) :
    List Row :=
  let pairs := photoPairs dl obs.id obs.photos
  if cfg.socialSplit ∧ 1 < (pairs.map Prod.fst).length ∧ ¬(scanAnnots obs.annots).2.1 then
    pairs.map (splitRow cfg dl uuid obs)
  else
    [mainRow cfg dl uuid obs]

/-- Normalize a whole fetched observation list; `uuidGen k` is the fresh
identifier available to the `k`-th observation. -/
def processObservations (cfg : Config) (dl : Str → Str → Bool)
    (uuidGen : Nat → Str) (observations : List Obs) : List Row :=
  observations.enum.flatMap (fun ko => processOne cfg dl (uuidGen ko.1) ko.2)

/- ### Delimited export (`write_csv`) -/

/-- The fixed leading CSV column names, in contract order. -/
def fixedFieldnames : List Str :=
  ["observation_id".toList,
   "observed_on".toList,
   "Encounter.year".toList,
   "Encounter.month".toList,
   "Encounter.day".toList,
   "scientific_name".toList,
   "Encounter.genus".toList,
   "Encounter.specificEpithet".toList,
   "common_name".toList,
   "Encounter.decimalLatitude".toList,
   "Encounter.decimalLongitude".toList,
   "Encounter.verbatimLocality".toList,
   "Encounter.locationID".toList,
   "Encounter.livingStatus".toList,
   "Encounter.submitterID".toList,
   "Encounter.state".toList,
   "Sighting.sightingID".toList,
   "observer".toList,
   "quality_grade".toList,
   "url".toList,
   "Encounter.researcherComments".toList,
   "photo_count".toList,
   "photo_filenames".toList]

/-- The photo-slot filename column name for slot `i`. -/
def mediaAssetCol (i : Nat) : Str := "Encounter.mediaAsset".toList ++ natStr i

/-- The photo-slot license column name for slot `i`. -/
def mediaAssetLicenseCol (i : Nat) : Str := mediaAssetCol i ++ ".license".toList

/-- The full CSV header: the fixed columns followed by one filename and
one license column per photo slot. -/
def csvFieldnames (maxPhotos : Nat) : List Str :=
  fixedFieldnames
    ++ (List.range maxPhotos).flatMap
        (fun i => [mediaAssetCol i, mediaAssetLicenseCol i])

/-- The maximum photo count across all records. -/
def maxPhotosOf (data : List Row) : Nat :=
  data.foldl (fun m r => max m r.photoList.length) 0

/-- The values of a record's fixed leading columns, in column order;
`none` is the empty CSV cell. -/
def fixedCells (r : Row) : List (Option Str) :=
  [some (natStr r.observation_id), some r.observed_on, r.year, r.month, r.day,
   some r.scientific_name, r.genus, r.specificEpithet, some r.common_name,
   r.decimalLatitude, r.decimalLongitude, some r.verbatimLocality,
   r.locationID, some r.livingStatus, r.submitterID, some r.state,
   r.sightingID, some r.observer, some r.quality_grade, some r.url,
   some r.researcherComments, some (natStr r.photo_count),
   some r.photo_filenames]

/-- Python's `repr`-style rendering of a boolean dict value. -/
def pyBoolStr (b : Bool) : Str :=
  if b then "True".toList else "False".toList

/-- The row dict exactly as it stands when handed to
`writer.writerows(data)`: the fixed columns with their values, the
per-slot photo/license columns added in the padding loop
(`photo_list[i] if i < len(photo_list) else None`), and — crucially — the
two temporary flag fields `_has_non_organism_evidence` and
`_is_skulls_and_bones`, which the deletion step removes `_photo_list` and
`_license_list` but NOT these.  Modelled as an association list; only the
key set and the key→value association matter to the dict writer, not the
insertion order. -/
def rowDict (maxPhotos : Nat) (r : Row) : List (Str × Option Str) :=
  fixedFieldnames.zip (fixedCells r)
    ++ (List.range maxPhotos).flatMap
        (fun i => [(mediaAssetCol i, r.photoList[i]?),
                   (mediaAssetLicenseCol i, r.licenseList[i]?)])
    ++ [("_has_non_organism_evidence".toList,
          some (pyBoolStr r.hasNonOrganismEvidence)),
        ("_is_skulls_and_bones".toList,
          some (pyBoolStr r.isSkullsAndBones))]

/-- `csv.DictWriter._dict_to_list` under the constructor's default
`extrasaction='raise'`: a row dict containing any key outside the
fieldnames raises `ValueError`; otherwise the cells are the
fieldname-ordered lookups with restval `None` for missing keys. -/
def dictToList (fieldnames : List Str) (row : List (Str × Option Str)) :
    Except Unit (List (Option Str)) :=
  let wrongFields := (row.map Prod.fst).filter
    (fun k => !fieldnames.contains k)
  if wrongFields ≠ [] then Except.error ()
  else Except.ok (fieldnames.map (fun f => (row.lookup f).getD none))

/-- `writer.writerows(data)`: convert each row dict in order, propagating
the first raised error. -/
def writerows (fieldnames : List Str)
    (rows : List (List (Str × Option Str))) :
    Except Unit (List (List (Option Str))) :=
  rows.mapM (dictToList fieldnames)

/-- `write_csv`: with no data nothing is written; otherwise the header is
written (`writeheader` sees no extra keys) and then the record dicts are
handed to `writerows`, whose outcome — the cell rows, or the `ValueError`
raised on a dict with keys outside the fieldnames — is returned alongside
the header. -/
def writeCsv (data : List Row) :
    Option (List Str × Except Unit (List (List (Option Str)))) :=
  if data = [] then none
  else
    let mp := maxPhotosOf data
    some (csvFieldnames mp,
      writerows (csvFieldnames mp) (data.map (rowDict mp)))

/- ### Interactive review page (`write_html` and its embedded script) -/

/-- The license summary shown per record in the review page: the
deduplicated comma-joined non-empty codes, or the literal `No license`. -/
def licenseDisplay (licenses : List Str) : Str :=
  let uniq := (licenses.filter (fun lc => lc ≠ [])).dedup
  if uniq ≠ [] then List.intercalate ", ".toList uniq
  else "No license".toList

/-- The checkbox-relevant slice of the per-record object embedded in the
review page. -/
structure HtmlObs where
  license_display : Str
  has_non_organism_evidence : Bool
  is_skulls_and_bones : Bool
  quality_grade : Str
deriving Repr, DecidableEq

/-- The review-page object built from a normalized record. -/
def htmlObsOfRow (r : Row) : HtmlObs :=
  { license_display := licenseDisplay r.licenseList
    has_non_organism_evidence := r.hasNonOrganismEvidence
    is_skulls_and_bones := r.isSkullsAndBones
    quality_grade := r.quality_grade }

/-- The script's default checkbox state: checked only when the license
display is not `No license`, neither flag is set, and the quality grade is
not `needs_id`. -/
def defaultChecked (o : HtmlObs) : Bool :=
  decide (o.license_display ≠ "No license".toList)
    && !o.has_non_organism_evidence
    && !o.is_skulls_and_bones
    && decide (o.quality_grade ≠ "needs_id".toList)

/-- The comparator the review view sorts with: checked records precede
unchecked ones. -/
def checkedLe (a b : HtmlObs) : Bool := defaultChecked a || !defaultChecked b

/-- The review view's default display order: the record list sorted with
the checked-first comparator. -/
def reviewOrder (l : List HtmlObs) : List HtmlObs := l.mergeSort checkedLe

/- ### Pagination (`get_observations`) -/

/-- One page response: a failure, or a result list with the API-reported
`total_results`. -/
abbrev PageResp (α : Type) := Except Unit (List α × Nat)

/-- The pagination loop over the (finite) sequence of page responses, with
the accumulated observations.  A missing response or a failed request
stops the loop keeping the accumulation; an empty result page stops it;
otherwise the page is appended and the loop continues unless the
accumulated count has reached the reported total. -/
def fetchPages {α : Type} : List (PageResp α) → List α → List α
  | [], acc => acc
  | Except.error _ :: _, acc => acc
  | Except.ok (results, total) :: rest, acc =>
    if results.isEmpty then acc
    else
      let acc2 := acc ++ results
      if total ≤ acc2.length then acc2
      else fetchPages rest acc2

/-- `get_observations`: run the pagination loop from an empty
accumulation. -/
def getObservations {α : Type} (pages : List (PageResp α)) : List α :=
  fetchPages pages []

/- ### C4: photo filename extension derivation -/

/-- C4: for every photo URL (split here into the part before the final
dot and the dot-free part `suf` after it, or dot-free entirely), the
filename saved is `{obs_id}_{photo_idx}.{ext}` where `ext` is the text
after the URL's final dot truncated at the first `?`, replaced by `jpg`
when it contains a slash or exceeds 4 characters.  This holds for all
URLs, including those whose query string contains a dot (where the final
dot lies inside the query). -/
theorem photo_filename_extension (obsId photoIdx : Nat) (url pre suf : Str) :
    (('.' : Char) ∉ url →
      photoFilename obsId photoIdx url
        = natStr obsId ++ '_' :: natStr photoIdx ++ '.' ::
            (let e := url.takeWhile (fun x => x ≠ '?')
             if '/' ∈ e ∨ 4 < e.length then "jpg".toList else e))
  ∧ (url = pre ++ '.' :: suf → ('.' : Char) ∉ suf →
      photoFilename obsId photoIdx url
        = natStr obsId ++ '_' :: natStr photoIdx ++ '.' ::
            (let e := suf.takeWhile (fun x => x ≠ '?')
             if '/' ∈ e ∨ 4 < e.length then "jpg".toList else e)) := by
  constructor
  · intro h
    have h1 : (splitOnChar '.' url).getLastD [] = url :=
      splitOnChar_getLastD_of_not_mem _ _ h
    unfold photoFilename photoExt photoExtRaw
    rw [h1, splitOnChar_headI]
  · intro heq h
    have h1 : (splitOnChar '.' url).getLastD [] = suf := by
      rw [heq]
      exact splitOnChar_getLastD_of_suffix '.' pre suf h
    unfold photoFilename photoExt photoExtRaw
    rw [h1, splitOnChar_headI]

/-- Witness for C4 at a URL whose query string contains a dot: the final
dot of the URL sits in the query, so the derived (4-character-bounded)
extension is the query tail `123`, exactly as the code computes. -/
theorem photo_filename_extension_witness :
    photoFilename 42 1 "http://x.com/p/photo.jpg?v=1.123".toList
      = "42_1.123".toList := by
  have h := (photo_filename_extension 42 1
      "http://x.com/p/photo.jpg?v=1.123".toList
      "http://x.com/p/photo.jpg?v=1".toList "123".toList).2
      (by decide) (by decide)
  rw [h]
  decide

/- ### C10: comma-free non-empty location string -/

/-- C10: a present, non-empty, comma-free combined location string makes
the whole (stripped) string the latitude with the longitude unset, and
the geojson fallback is not consulted (the result is independent of
`geo`). -/
theorem location_no_comma (s : Str) (geo : Option (List Str))
    (h1 : s ≠ []) (h2 : (',' : Char) ∉ s) :
    extractLocation (some s) geo = (some (pyStrip s), none) := by
  have hdef : extractLocation (some s) geo
      = if s ≠ [] then
          ((splitOnChar ',' s)[0]?.map pyStrip,
           (splitOnChar ',' s)[1]?.map pyStrip)
        else geoFallback geo := rfl
  rw [hdef, if_pos h1, splitOnChar_of_not_mem ',' s h2]
  rfl

/-- Witness for C10: a padded comma-free string with coordinates also
present. -/
theorem location_no_comma_witness :
    extractLocation (some " 12.5 ".toList)
        (some ["9".toList, "8".toList])
      = (some "12.5".toList, none) := by
  have h := location_no_comma " 12.5 ".toList
      (some ["9".toList, "8".toList]) (by decide) (by decide)
  rw [h]
  decide

/- ### C5: pagination termination and overshoot bound -/

theorem fetchPages_bound {α : Type} (pages : List (PageResp α)) (T : Nat)
    (hT : ∀ rs t, Except.ok (rs, t) ∈ pages → t = T ∧ rs.length ≤ 200)
    (acc : List α) (hacc : acc.length < T ∨ acc = []) :
    (fetchPages pages acc).length ≤ T + 200 := by
  induction pages generalizing acc with
  | nil =>
    rcases hacc with h | h
    · simpa [fetchPages] using Nat.le_of_lt (Nat.lt_of_lt_of_le h (by omega))
    · simp [fetchPages, h]
  | cons p rest ih =>
    have haccle : acc.length ≤ T := by
      rcases hacc with h | h
      · omega
      · simp [h]
    match p with
    | Except.error e =>
      cases e
      simpa [fetchPages] using le_trans haccle (by omega)
    | Except.ok (rs, t) =>
      have ht := hT rs t (List.mem_cons_self _ _)
      by_cases hrs : rs.isEmpty
      · simpa [fetchPages, hrs] using le_trans haccle (by omega)
      · rw [fetchPages, if_neg (by simp [hrs])]
        by_cases hstop : t ≤ (acc ++ rs).length
        · rw [if_pos hstop]
          simp only [List.length_append]
          omega
        · rw [if_neg hstop]
          refine ih (fun rs2 t2 hm => hT rs2 t2 (List.mem_cons_of_mem _ hm))
            (acc ++ rs) (Or.inl ?_)
          simp only [List.length_append] at hstop ⊢
          omega

/-- C5: pagination stops exactly on a failed request (keeping the
accumulation), on an empty page, or on reaching the reported total when
appending a page; otherwise it continues with the page appended.  When
every page reports the same total `T` and carries at most one page's worth
of records (200), the accumulated result never exceeds `T` by more than
200. -/
theorem pagination_halt_and_bound (α : Type) :
    (∀ (rest : List (PageResp α)) (acc : List α),
        fetchPages (Except.error () :: rest) acc = acc)
  ∧ (∀ (rest : List (PageResp α)) (acc : List α) (t : Nat),
        fetchPages (Except.ok ([], t) :: rest) acc = acc)
  ∧ (∀ (rest : List (PageResp α)) (acc rs : List α) (t : Nat),
        rs ≠ [] → t ≤ acc.length + rs.length →
        fetchPages (Except.ok (rs, t) :: rest) acc = acc ++ rs)
  ∧ (∀ (rest : List (PageResp α)) (acc rs : List α) (t : Nat),
        rs ≠ [] → acc.length + rs.length < t →
        fetchPages (Except.ok (rs, t) :: rest) acc = fetchPages rest (acc ++ rs))
  ∧ (∀ (pages : List (PageResp α)) (T : Nat),
        (∀ rs t, Except.ok (rs, t) ∈ pages → t = T ∧ rs.length ≤ 200) →
        (getObservations pages).length ≤ T + 200) := by
  refine ⟨fun rest acc => rfl, fun rest acc t => rfl, ?_, ?_, ?_⟩
  · intro rest acc rs t hne hstop
    rw [fetchPages, if_neg (by simp [hne]),
      if_pos (by simpa [List.length_append] using hstop)]
  · intro rest acc rs t hne hcont
    rw [fetchPages, if_neg (by simp [hne]),
      if_neg (by simpa [List.length_append] using Nat.not_le_of_lt hcont)]
  · intro pages T hT
    exact fetchPages_bound pages T hT [] (Or.inr rfl)

/-- Witness for C5: two full pages then a stop on reaching the total of 5;
the error and empty-page stops, the overshoot bound, and retention of
partial results on failure, all at concrete pages. -/
theorem pagination_witness :
    getObservations [Except.ok ([1, 2, 3], 5), Except.ok ([4, 5], 5),
        Except.ok ([9], 5)] = [1, 2, 3, 4, 5]
  ∧ getObservations [Except.ok ([1, 2, 3], 5), Except.error (),
        Except.ok ([9], 5)] = [1, 2, 3]
  ∧ (getObservations [Except.ok ([1, 2, 3], 3), Except.error ()]).length
      ≤ 3 + 200 := by
  have h := pagination_halt_and_bound Nat
  refine ⟨?_, ?_, ?_⟩
  · have h1 := h.2.2.2.1 [Except.ok ([4, 5], 5), Except.ok ([9], 5)]
      [] [1, 2, 3] 5 (by decide) (by decide)
    have h2 := h.2.2.1 [Except.ok ([9], 5)] [1, 2, 3] [4, 5] 5
      (by decide) (by decide)
    calc getObservations [Except.ok ([1, 2, 3], 5), Except.ok ([4, 5], 5),
            Except.ok ([9], 5)]
        = fetchPages [Except.ok ([4, 5], 5), Except.ok ([9], 5)] [1, 2, 3] := h1
      _ = [1, 2, 3] ++ [4, 5] := h2
      _ = [1, 2, 3, 4, 5] := by decide
  · have h2 := h.2.2.2.1 [Except.error (), Except.ok ([9], 5)] [] [1, 2, 3] 5
      (by decide) (by decide)
    have h3 := h.1 [Except.ok ([9], 5)] [1, 2, 3]
    calc getObservations [Except.ok ([1, 2, 3], 5), Except.error (),
            Except.ok ([9], 5)]
        = fetchPages [Except.error (), Except.ok ([9], 5)] [1, 2, 3] := h2
      _ = [1, 2, 3] := h3
  · refine h.2.2.2.2 _ 3 ?_
    intro rs t hm
    rcases List.mem_cons.mp hm with hm | hm
    · cases hm
      exact ⟨rfl, by decide⟩
    · rcases List.mem_cons.mp hm with hm | hm
      · exact Except.noConfusion hm
      · exact absurd hm (List.not_mem_nil _)

/- ### C6: location preference and geojson fallback -/

/-- Counterexample to C6 as stated: a present but empty combined location
string is NOT preferred — the code falls back to the geojson coordinates
(note the swapped order), instead of producing the trimmed empty latitude
the claim's reading of "present" would require. -/
theorem location_preference_cex :
    extractLocation (some []) (some ["12.3".toList, "45.6".toList])
        = (some "45.6".toList, some "12.3".toList)
  ∧ extractLocation (some []) (some ["12.3".toList, "45.6".toList])
        ≠ (some (pyStrip []), none) := by
  constructor
  · rfl
  · decide

/-- C6 (amended): a present AND non-empty combined location string is
preferred (split on a comma, parts trimmed, first part latitude, second
longitude); an absent OR empty string falls back to the
geographic-coordinates array, where element 0 is the longitude and
element 1 the latitude. -/
theorem location_extraction_amended (loc : Option Str) (geo : Option (List Str))
    (s a b : Str) (coords : List Str) :
    (loc = some s → s ≠ [] →
        extractLocation loc geo
          = ((splitOnChar ',' s)[0]?.map pyStrip,
             (splitOnChar ',' s)[1]?.map pyStrip))
  ∧ ((loc = none ∨ loc = some []) → extractLocation loc geo = geoFallback geo)
  ∧ (geo = some (a :: b :: coords) → geoFallback geo = (some b, some a)) := by
  refine ⟨?_, ?_, ?_⟩
  · rintro rfl hs
    have hdef : extractLocation (some s) geo
        = if s ≠ [] then
            ((splitOnChar ',' s)[0]?.map pyStrip,
             (splitOnChar ',' s)[1]?.map pyStrip)
          else geoFallback geo := rfl
    rw [hdef, if_pos hs]
  · rintro (rfl | rfl)
    · rfl
    · rfl
  · rintro rfl
    have hdef : geoFallback (some (a :: b :: coords))
        = if (a :: b :: coords) ≠ [] ∧ 2 ≤ (a :: b :: coords).length
          then ((a :: b :: coords)[1]?, (a :: b :: coords)[0]?)
          else (none, none) := rfl
    rw [hdef, if_pos (by simp)]
    simp

/-- Witness for C6 (amended): a real "lat,lon" string is preferred, and an
absent string uses the coordinates with the inverted order. -/
theorem location_extraction_witness :
    extractLocation (some "12.3, 45.6".toList) (some ["1".toList, "2".toList])
        = (some "12.3".toList, some "45.6".toList)
  ∧ extractLocation none (some ["12.3".toList, "45.6".toList])
        = (some "45.6".toList, some "12.3".toList) := by
  constructor
  · have h := (location_extraction_amended (some "12.3, 45.6".toList)
        (some ["1".toList, "2".toList]) "12.3, 45.6".toList [] [] []).1
        rfl (by decide)
    rw [h]
    decide
  · have h := (location_extraction_amended none
        (some ["12.3".toList, "45.6".toList]) [] "12.3".toList "45.6".toList
        []).2
    rw [h.1 (Or.inl rfl), h.2 rfl]

/- ### C2: order (in)dependence of the annotation scan -/

theorem annotStep_single (st : Str × Bool × Bool) (a : Annot) :
    (annotStep st a).2.1
      = (st.2.1 || decide (a.controlled_attribute_id = some 22
            ∧ a.controlled_value_id = some 24)) := by
  unfold annotStep
  by_cases h1 : a.controlled_attribute_id = some 22 <;>
    by_cases h2 : a.controlled_value_id = some 24 <;>
      by_cases h3 : a.controlled_value_id = none <;>
        simp [h1, h2, h3]

theorem annotStep_nonorg (st : Str × Bool × Bool) (a : Annot) :
    (annotStep st a).2.2
      = (st.2.2 || decide (a.controlled_attribute_id = some 22
            ∧ a.controlled_value_id ≠ some 24
            ∧ a.controlled_value_id ≠ none)) := by
  unfold annotStep
  by_cases h1 : a.controlled_attribute_id = some 22 <;>
    by_cases h2 : a.controlled_value_id = some 24 <;>
      by_cases h3 : a.controlled_value_id = none <;>
        simp [h1, h2, h3]

theorem scanAnnots_single_eq_any (l : List Annot) (s : Str) (b1 b2 : Bool) :
    (l.foldl annotStep (s, b1, b2)).2.1
      = (b1 || l.any (fun a => decide (a.controlled_attribute_id = some 22
            ∧ a.controlled_value_id = some 24))) := by
  induction l generalizing s b1 b2 with
  | nil => simp
  | cons a l ih =>
    rw [List.foldl_cons, List.any_cons]
    have hstep : annotStep (s, b1, b2) a
        = ((annotStep (s, b1, b2) a).1, (annotStep (s, b1, b2) a).2.1,
           (annotStep (s, b1, b2) a).2.2) := rfl
    rw [hstep, ih, annotStep_single]
    simp [Bool.or_assoc]

theorem scanAnnots_nonorg_eq_any (l : List Annot) (s : Str) (b1 b2 : Bool) :
    (l.foldl annotStep (s, b1, b2)).2.2
      = (b2 || l.any (fun a => decide (a.controlled_attribute_id = some 22
            ∧ a.controlled_value_id ≠ some 24
            ∧ a.controlled_value_id ≠ none))) := by
  induction l generalizing s b1 b2 with
  | nil => simp
  | cons a l ih =>
    rw [List.foldl_cons, List.any_cons]
    have hstep : annotStep (s, b1, b2) a
        = ((annotStep (s, b1, b2) a).1, (annotStep (s, b1, b2) a).2.1,
           (annotStep (s, b1, b2) a).2.2) := rfl
    rw [hstep, ih, annotStep_nonorg]
    simp [Bool.or_assoc]

theorem any_of_perm {α : Type} {l1 l2 : List α} (h : l1.Perm l2)
    (p : α → Bool) : l1.any p = l2.any p := by
  induction h with
  | nil => rfl
  | cons x _ ih => simp [List.any_cons, ih]
  | swap x y l => simp [List.any_cons, Bool.or_left_comm]
  | trans _ _ ih1 ih2 => exact ih1.trans ih2

/-- Counterexample to C2 as stated: living-status is last-writer-wins, so
an annotation list carrying both controlled-value codes 19 and 14
classifies differently under the two orders (`alive` when 14 comes last,
`dead` when 19 does), although the two lists are permutations of each
other. -/
theorem annot_scan_order_cex :
    ([⟨some 19, none⟩, ⟨some 14, none⟩] : List Annot).Perm
        [⟨some 14, none⟩, ⟨some 19, none⟩]
  ∧ (scanAnnots [⟨some 19, none⟩, ⟨some 14, none⟩]).1 = "alive".toList
  ∧ (scanAnnots [⟨some 14, none⟩, ⟨some 19, none⟩]).1 = "dead".toList
  ∧ (scanAnnots [⟨some 19, none⟩, ⟨some 14, none⟩]).1
      ≠ (scanAnnots [⟨some 14, none⟩, ⟨some 19, none⟩]).1 := by
  refine ⟨List.Perm.swap _ _ _, by decide, by decide, by decide⟩

/-- C2 (amended): the single-subject flag, the non-organism-evidence flag
and the project flag are order-independent — permuting the annotation list
(or the project-membership list) leaves them unchanged.  (Living-status is
NOT order-independent: it is decided by the last annotation carrying code
19 or 14.) -/
theorem annot_scan_flags_order_independent (l1 l2 : List Annot)
    (p1 p2 : List Nat) (h : l1.Perm l2) (hp : p1.Perm p2) :
    (scanAnnots l1).2.1 = (scanAnnots l2).2.1
  ∧ (scanAnnots l1).2.2 = (scanAnnots l2).2.2
  ∧ p1.contains 488 = p2.contains 488 := by
  refine ⟨?_, ?_, ?_⟩
  · unfold scanAnnots
    rw [scanAnnots_single_eq_any, scanAnnots_single_eq_any, any_of_perm h]
  · unfold scanAnnots
    rw [scanAnnots_nonorg_eq_any, scanAnnots_nonorg_eq_any, any_of_perm h]
  · rw [List.contains_eq_any_beq, List.contains_eq_any_beq]
    exact any_of_perm hp _

/-- Witness for C2 (amended): a concrete permutation of a two-annotation
list and of a project list. -/
theorem annot_scan_flags_witness :
    (scanAnnots [⟨some 24, some 22⟩, ⟨some 7, some 22⟩]).2.1
        = (scanAnnots [⟨some 7, some 22⟩, ⟨some 24, some 22⟩]).2.1
  ∧ (scanAnnots [⟨some 24, some 22⟩, ⟨some 7, some 22⟩]).2.2
        = (scanAnnots [⟨some 7, some 22⟩, ⟨some 24, some 22⟩]).2.2
  ∧ ([488, 3] : List Nat).contains 488 = ([3, 488] : List Nat).contains 488 := by
  exact annot_scan_flags_order_independent _ _ [488, 3] [3, 488]
    (List.Perm.swap _ _ _) (List.Perm.swap _ _ _)

/- ### Structural lemmas about the emitted rows -/

theorem mainRow_photoList (cfg : Config) (dl : Str → Str → Bool) (uuid : Str)
    (obs : Obs) :
    (mainRow cfg dl uuid obs).photoList
      = (photoPairs dl obs.id obs.photos).map Prod.fst := rfl

theorem mainRow_licenseList (cfg : Config) (dl : Str → Str → Bool) (uuid : Str)
    (obs : Obs) :
    (mainRow cfg dl uuid obs).licenseList
      = (photoPairs dl obs.id obs.photos).map Prod.snd := rfl

theorem mainRow_comment (cfg : Config) (dl : Str → Str → Bool) (uuid : Str)
    (obs : Obs) :
    (mainRow cfg dl uuid obs).researcherComments
      = commentOf cfg.todayDate (obsUrlOf obs.id)
          ((photoPairs dl obs.id obs.photos).map Prod.snd) := rfl

theorem splitRow_comment (cfg : Config) (dl : Str → Str → Bool) (uuid : Str)
    (obs : Obs) (fl : Str × Str) :
    (splitRow cfg dl uuid obs fl).researcherComments
      = commentOf cfg.todayDate (obsUrlOf obs.id)
          ((photoPairs dl obs.id obs.photos).map Prod.snd) := rfl

/-- Every row emitted for one observation is either the whole-observation
row or a per-photo split row of one of its acquired photo pairs. -/
theorem processOne_mem_cases {cfg : Config} {dl : Str → Str → Bool}
    {uuid : Str} {obs : Obs} {r : Row} (hr : r ∈ processOne cfg dl uuid obs) :
    r = mainRow cfg dl uuid obs
  ∨ ∃ fl ∈ photoPairs dl obs.id obs.photos, r = splitRow cfg dl uuid obs fl := by
  have hdef : processOne cfg dl uuid obs
      = if cfg.socialSplit
            ∧ 1 < ((photoPairs dl obs.id obs.photos).map Prod.fst).length
            ∧ ¬(scanAnnots obs.annots).2.1
        then (photoPairs dl obs.id obs.photos).map (splitRow cfg dl uuid obs)
        else [mainRow cfg dl uuid obs] := rfl
  rw [hdef] at hr
  split at hr
  · right
    obtain ⟨fl, hfl, rfl⟩ := List.mem_map.mp hr
    exact ⟨fl, hfl, rfl⟩
  · left
    exact List.mem_singleton.mp hr

/-- When row-splitting applies (enabled, more than one acquired photo, not
single-subject) the output is exactly the per-photo rows, in photo order. -/
theorem processOne_split_eq (cfg : Config) (dl : Str → Str → Bool)
    (uuid : Str) (obs : Obs) (hsoc : cfg.socialSplit = true)
    (hlt : 1 < (photoPairs dl obs.id obs.photos).length)
    (hsingle : (scanAnnots obs.annots).2.1 = false) :
    processOne cfg dl uuid obs
      = (photoPairs dl obs.id obs.photos).map (splitRow cfg dl uuid obs) := by
  unfold processOne
  rw [if_pos ⟨hsoc, by simpa using hlt, by simp [hsingle]⟩]

/-- Otherwise the output is exactly the one whole-observation row. -/
theorem processOne_main_eq (cfg : Config) (dl : Str → Str → Bool)
    (uuid : Str) (obs : Obs)
    (h : ¬(cfg.socialSplit = true ∧ 1 < (photoPairs dl obs.id obs.photos).length
            ∧ (scanAnnots obs.annots).2.1 = false)) :
    processOne cfg dl uuid obs = [mainRow cfg dl uuid obs] := by
  unfold processOne
  rw [if_neg ?_]
  intro hc
  exact h ⟨hc.1, by simpa using hc.2.1, by simpa using hc.2.2⟩

/- ### C3: researcher-comment synthesis -/

theorem commentOf_eq_cases (today u : Str) (lics : List Str) :
    (lics = [] → commentOf today u lics = commentBase today u)
  ∧ ((∃ lc ∈ lics, lc ≠ []) →
      commentOf today u lics
        = commentBase today u ++ "<br>License(s): ".toList
            ++ List.intercalate ", ".toList
                ((lics.filter (fun lc => lc ≠ [])).dedup))
  ∧ (lics ≠ [] → (∀ lc ∈ lics, lc = []) →
      commentOf today u lics
        = commentBase today u
            ++ "<br>License: None specified. Copyright applies.".toList) := by
  refine ⟨?_, ?_, ?_⟩
  · rintro rfl
    rfl
  · rintro ⟨lc, hmem, hne⟩
    have hlne : lics ≠ [] := List.ne_nil_of_mem hmem
    have huniq : (lics.filter (fun lc => lc ≠ [])).dedup ≠ [] := by
      intro hq
      rw [List.dedup_eq_nil, List.filter_eq_nil_iff] at hq
      have hx := hq lc hmem
      simp at hx
      exact hne hx
    unfold commentOf
    rw [if_pos hlne, if_pos huniq]
  · intro hlne hall
    have huniq : (lics.filter (fun lc => lc ≠ [])).dedup = [] := by
      rw [List.dedup_eq_nil, List.filter_eq_nil_iff]
      intro a ha
      simpa using hall a ha
    unfold commentOf
    rw [if_pos hlne, if_neg (not_not_intro huniq)]

set_option maxRecDepth 8192 in
/-- Counterexample to C3 as stated: with zero acquired photos the comment
is just the fixed-format note — neither a license list nor the
"no license, copyright applies" notice is appended, although the claim
requires the notice in exactly this case. -/
theorem comment_zero_photos_cex :
    (processOne ⟨"Sp".toList, "2026-10-12".toList, none, none, false⟩
        (fun _ _ => false) "u1".toList
        ⟨7, some "2024-01-02".toList, none, none, [], none, none, none,
          [], [], []⟩).map Row.researcherComments
      = [commentBase "2026-10-12".toList (obsUrlOf 7)]
  ∧ ¬ ("Copyright applies".toList <:+:
        commentBase "2026-10-12".toList (obsUrlOf 7)) := by
  constructor
  · rw [processOne_main_eq _ _ _ _ (by decide), List.map_singleton,
      mainRow_comment]
    exact congrArg (fun x => [x]) ((commentOf_eq_cases _ _ _).1 rfl)
  · decide

/-- C3 (amended): every emitted record's comment is the fixed-format note
citing the download date and canonical URL, followed by the deduplicated
comma-joined non-empty license codes when at least one exists, by the
"no license, copyright applies" notice when at least one photo was
acquired but every code is empty, and by nothing at all when zero photos
were acquired. -/
theorem comment_synthesis_amended (cfg : Config) (dl : Str → Str → Bool)
    (uuid : Str) (obs : Obs) (r : Row)
    (hr : r ∈ processOne cfg dl uuid obs) :
    ((photoPairs dl obs.id obs.photos).map Prod.snd = [] →
        r.researcherComments = commentBase cfg.todayDate (obsUrlOf obs.id))
  ∧ ((∃ lc ∈ (photoPairs dl obs.id obs.photos).map Prod.snd, lc ≠ []) →
        r.researcherComments
          = commentBase cfg.todayDate (obsUrlOf obs.id)
              ++ "<br>License(s): ".toList
              ++ List.intercalate ", ".toList
                  ((((photoPairs dl obs.id obs.photos).map Prod.snd).filter
                      (fun lc => lc ≠ [])).dedup))
  ∧ ((photoPairs dl obs.id obs.photos).map Prod.snd ≠ [] →
      (∀ lc ∈ (photoPairs dl obs.id obs.photos).map Prod.snd, lc = []) →
        r.researcherComments
          = commentBase cfg.todayDate (obsUrlOf obs.id)
              ++ "<br>License: None specified. Copyright applies.".toList) := by
  have hc : r.researcherComments
      = commentOf cfg.todayDate (obsUrlOf obs.id)
          ((photoPairs dl obs.id obs.photos).map Prod.snd) := by
    rcases processOne_mem_cases hr with rfl | ⟨fl, hfl, rfl⟩
    · exact mainRow_comment cfg dl uuid obs
    · exact splitRow_comment cfg dl uuid obs fl
  obtain ⟨h1, h2, h3⟩ := commentOf_eq_cases cfg.todayDate (obsUrlOf obs.id)
    ((photoPairs dl obs.id obs.photos).map Prod.snd)
  exact ⟨fun h => hc.trans (h1 h), fun h => hc.trans (h2 h),
    fun ha hb => hc.trans (h3 ha hb)⟩

/-- Witness for C3 (amended) at a concrete observation with two photos,
one licensed and one unlicensed. -/
theorem comment_synthesis_witness :
    (mainRow ⟨"Sp".toList, "2026-10-12".toList, none, none, false⟩
        (fun _ _ => true) "u1".toList
        ⟨7, none, none, none, [], none, none, none, [], [],
          [⟨"http://a/sq.jpg".toList, "cc-by".toList⟩,
           ⟨"http://a/sq2.jpg".toList, "".toList⟩]⟩).researcherComments
      = commentBase "2026-10-12".toList (obsUrlOf 7)
          ++ "<br>License(s): ".toList ++ "cc-by".toList := by
  have hr : mainRow ⟨"Sp".toList, "2026-10-12".toList, none, none, false⟩
      (fun _ _ => true) "u1".toList
      ⟨7, none, none, none, [], none, none, none, [], [],
        [⟨"http://a/sq.jpg".toList, "cc-by".toList⟩,
         ⟨"http://a/sq2.jpg".toList, "".toList⟩]⟩
      ∈ processOne ⟨"Sp".toList, "2026-10-12".toList, none, none, false⟩
        (fun _ _ => true) "u1".toList
        ⟨7, none, none, none, [], none, none, none, [], [],
          [⟨"http://a/sq.jpg".toList, "cc-by".toList⟩,
           ⟨"http://a/sq2.jpg".toList, "".toList⟩]⟩ := by
    rw [processOne_main_eq _ _ _ _ (by decide)]
    exact List.mem_singleton_self _
  have h := (comment_synthesis_amended _ _ _ _ _ hr).2.1
    ⟨"cc-by".toList, by decide, by decide⟩
  rw [h]
  decide

/- ### C7: parallel photo/license lists -/

/-- C7: in every emitted record the photo filename list and the license
list have equal length (both are projections of the same success-filtered
pair list, or both singletons), and under active row-splitting every row
of the group carries exactly one filename and one license. -/
theorem parallel_license_lists (cfg : Config) (dl : Str → Str → Bool)
    (g : Nat → Str) (observations : List Obs) :
    (∀ r ∈ processObservations cfg dl g observations,
        r.photoList.length = r.licenseList.length)
  ∧ (∀ (uuid : Str) (obs : Obs), cfg.socialSplit = true →
        1 < (photoPairs dl obs.id obs.photos).length →
        (scanAnnots obs.annots).2.1 = false →
        ∀ r ∈ processOne cfg dl uuid obs,
          r.photoList.length = 1 ∧ r.licenseList.length = 1) := by
  constructor
  · intro r hr
    unfold processObservations at hr
    obtain ⟨ko, hko, hmem⟩ := List.mem_flatMap.mp hr
    rcases processOne_mem_cases hmem with rfl | ⟨fl, hfl, rfl⟩
    · rw [mainRow_photoList, mainRow_licenseList]
      simp
    · rfl
  · intro uuid obs hsoc hlt hsingle r hr
    rw [processOne_split_eq cfg dl uuid obs hsoc hlt hsingle] at hr
    obtain ⟨fl, hfl, rfl⟩ := List.mem_map.mp hr
    exact ⟨rfl, rfl⟩

/-- Witness for C7 at a run over one concrete observation with two photos,
one of which fails to download. -/
theorem parallel_license_lists_witness :
    (mainRow ⟨"Sp".toList, "D".toList, none, none, false⟩
        (fun u _ => u ≠ "a.png".toList) "u0".toList
        ⟨3, none, none, none, [], none, none, none, [], [],
          [⟨"a.png".toList, "cc0".toList⟩,
           ⟨"b.png".toList, "cc-by".toList⟩]⟩).photoList.length
      = (mainRow ⟨"Sp".toList, "D".toList, none, none, false⟩
          (fun u _ => u ≠ "a.png".toList) "u0".toList
          ⟨3, none, none, none, [], none, none, none, [], [],
            [⟨"a.png".toList, "cc0".toList⟩,
             ⟨"b.png".toList, "cc-by".toList⟩]⟩).licenseList.length := by
  refine (parallel_license_lists ⟨"Sp".toList, "D".toList, none, none, false⟩
      (fun u _ => u ≠ "a.png".toList) (fun _ => "u0".toList)
      [⟨3, none, none, none, [], none, none, none, [], [],
        [⟨"a.png".toList, "cc0".toList⟩,
         ⟨"b.png".toList, "cc-by".toList⟩]⟩]).1 _ ?_
  show mainRow _ _ _ _ ∈ processObservations _ _ _ _
  unfold processObservations
  rw [show ([(⟨3, none, none, none, [], none, none, none, [], [],
      [⟨"a.png".toList, "cc0".toList⟩,
       ⟨"b.png".toList, "cc-by".toList⟩]⟩ : Obs)].enum)
    = [(0, ⟨3, none, none, none, [], none, none, none, [], [],
        [⟨"a.png".toList, "cc0".toList⟩,
         ⟨"b.png".toList, "cc-by".toList⟩]⟩)] from rfl]
  rw [List.flatMap_cons, List.flatMap_nil, List.append_nil]
  rw [processOne_main_eq _ _ _ _ (by decide)]
  exact List.mem_singleton_self _

/- ### C1: row materialization policy -/

/-- C1: with row-splitting enabled, more than one acquired photo and no
single-subject flag, exactly one record per acquired photo is emitted,
each carrying exactly that photo/license pair with `photo_count` 1 and the
shared fresh sighting identifier; otherwise exactly one record is emitted
carrying all acquired photos, whose sighting identifier is set iff
row-splitting is enabled and at least one photo was acquired. -/
theorem row_materialization (cfg : Config) (dl : Str → Str → Bool)
    (uuid : Str) (obs : Obs) :
    (cfg.socialSplit = true → 1 < (photoPairs dl obs.id obs.photos).length →
      (scanAnnots obs.annots).2.1 = false →
        (processOne cfg dl uuid obs).length
            = (photoPairs dl obs.id obs.photos).length
      ∧ (processOne cfg dl uuid obs).map Row.photoList
            = (photoPairs dl obs.id obs.photos).map (fun fl => [fl.1])
      ∧ (processOne cfg dl uuid obs).map Row.licenseList
            = (photoPairs dl obs.id obs.photos).map (fun fl => [fl.2])
      ∧ ∀ r ∈ processOne cfg dl uuid obs,
          r.photo_count = 1 ∧ r.sightingID = some uuid)
  ∧ (¬(cfg.socialSplit = true ∧ 1 < (photoPairs dl obs.id obs.photos).length
        ∧ (scanAnnots obs.annots).2.1 = false) →
        processOne cfg dl uuid obs = [mainRow cfg dl uuid obs]
      ∧ (mainRow cfg dl uuid obs).photoList
            = (photoPairs dl obs.id obs.photos).map Prod.fst
      ∧ (mainRow cfg dl uuid obs).licenseList
            = (photoPairs dl obs.id obs.photos).map Prod.snd
      ∧ (mainRow cfg dl uuid obs).photo_count
            = (photoPairs dl obs.id obs.photos).length
      ∧ (mainRow cfg dl uuid obs).sightingID
            = (if cfg.socialSplit = true
                  ∧ 1 ≤ (photoPairs dl obs.id obs.photos).length
               then some uuid else none)) := by
  constructor
  · intro hsoc hlt hsingle
    have heq := processOne_split_eq cfg dl uuid obs hsoc hlt hsingle
    refine ⟨by rw [heq, List.length_map], ?_, ?_, ?_⟩
    · rw [heq, List.map_map]
      simp [Function.comp, splitRow]
    · rw [heq, List.map_map]
      simp [Function.comp, splitRow]
    · intro r hr
      rw [heq] at hr
      obtain ⟨fl, hfl, rfl⟩ := List.mem_map.mp hr
      exact ⟨rfl, rfl⟩
  · intro h
    refine ⟨processOne_main_eq cfg dl uuid obs h, mainRow_photoList cfg dl uuid obs,
      mainRow_licenseList cfg dl uuid obs, ?_, ?_⟩
    · rw [show (mainRow cfg dl uuid obs).photo_count
          = ((photoPairs dl obs.id obs.photos).map Prod.fst).length from rfl,
        List.length_map]
    · rw [show (mainRow cfg dl uuid obs).sightingID
          = (if cfg.socialSplit = true
                ∧ 1 ≤ ((photoPairs dl obs.id obs.photos).map Prod.fst).length
             then some uuid else none) from rfl]
      simp only [List.length_map]

/-- Witness for C1 in the splitting branch: two acquired photos, splitting
enabled, no single-subject flag — two rows, one photo each, shared
sighting identifier. -/
theorem row_materialization_witness :
    (processOne ⟨"Sp".toList, "D".toList, none, none, true⟩ (fun _ _ => true)
        "uu".toList
        ⟨3, none, none, none, [], none, none, none, [], [],
          [⟨"a.png".toList, "cc0".toList⟩,
           ⟨"b.png".toList, "cc-by".toList⟩]⟩).length = 2
  ∧ (processOne ⟨"Sp".toList, "D".toList, none, none, true⟩ (fun _ _ => true)
        "uu".toList
        ⟨3, none, none, none, [], none, none, none, [], [],
          [⟨"a.png".toList, "cc0".toList⟩,
           ⟨"b.png".toList, "cc-by".toList⟩]⟩).map Row.photoList
      = [["3_1.png".toList], ["3_2.png".toList]] := by
  have h := (row_materialization ⟨"Sp".toList, "D".toList, none, none, true⟩
      (fun _ _ => true) "uu".toList
      ⟨3, none, none, none, [], none, none, none, [], [],
        [⟨"a.png".toList, "cc0".toList⟩,
         ⟨"b.png".toList, "cc-by".toList⟩]⟩).1 rfl (by decide) rfl
  exact ⟨h.1.trans (by decide), h.2.1.trans (by decide)⟩

/- ### C9: the delimited export raises on its own records -/

theorem head_ne_of_ne (a b : Char) (l1 l2 : Str) (hab : a ≠ b) :
    a :: l1 ≠ b :: l2 := by
  intro h
  injection h with h1 _
  exact hab h1

/-- No key starting with an underscore is among the CSV fieldnames: it is
not one of the 23 fixed columns (checked directly) and every photo-slot
column starts with `E`. -/
theorem underscore_not_mem_csvFieldnames (mp : Nat) (k tail : Str)
    (hk : k = '_' :: tail) (hfix : k ∉ fixedFieldnames) :
    k ∉ csvFieldnames mp := by
  intro h
  unfold csvFieldnames at h
  rcases List.mem_append.mp h with h | h
  · exact hfix h
  · obtain ⟨i, _, hmem⟩ := List.mem_flatMap.mp h
    rcases List.mem_cons.mp hmem with h2 | h2
    · rw [hk, show mediaAssetCol i
          = 'E' :: ("ncounter.mediaAsset".toList ++ natStr i) from rfl] at h2
      exact head_ne_of_ne _ _ _ _ (by decide) h2
    · rcases List.mem_cons.mp h2 with h3 | h3
      · rw [hk, show mediaAssetLicenseCol i
            = 'E' :: (("ncounter.mediaAsset".toList ++ natStr i)
                ++ ".license".toList) from rfl] at h3
        exact head_ne_of_ne _ _ _ _ (by decide) h3
      · exact absurd h3 (List.not_mem_nil _)

/-- Converting any record's row dict raises: the never-deleted
`_has_non_organism_evidence` key is outside the fieldnames, so the
`extrasaction='raise'` check fires. -/
theorem dictToList_rowDict_error (mp : Nat) (r : Row) :
    dictToList (csvFieldnames mp) (rowDict mp r) = Except.error () := by
  have hnotmem : "_has_non_organism_evidence".toList ∉ csvFieldnames mp :=
    underscore_not_mem_csvFieldnames mp _ _ rfl (by decide)
  have hkey : "_has_non_organism_evidence".toList
      ∈ (rowDict mp r).map Prod.fst := by
    unfold rowDict
    rw [List.map_append, List.map_append]
    refine List.mem_append.mpr (Or.inr ?_)
    rw [List.map_cons, List.map_cons, List.map_nil]
    exact List.mem_cons_self _ _
  have hcontains : (csvFieldnames mp).contains
      "_has_non_organism_evidence".toList = false := by
    rw [List.contains_eq_any_beq, List.any_eq_false]
    intro x hx hbeq
    exact hnotmem ((eq_of_beq hbeq) ▸ hx)
  have hfilter : "_has_non_organism_evidence".toList
      ∈ ((rowDict mp r).map Prod.fst).filter
          (fun k => !(csvFieldnames mp).contains k) :=
    List.mem_filter.mpr ⟨hkey, by rw [hcontains]; rfl⟩
  unfold dictToList
  rw [if_pos (List.ne_nil_of_mem hfilter)]

theorem writerows_cons_error (fieldnames : List Str)
    (row : List (Str × Option Str)) (rows : List (List (Str × Option Str)))
    (h : dictToList fieldnames row = Except.error ()) :
    writerows fieldnames (row :: rows) = Except.error () := by
  unfold writerows
  rw [List.mapM_cons, h]
  rfl

/-- C9 (code bug): `write_csv` deletes only the `_photo_list` and
`_license_list` temporaries, so every row dict handed to the writer still
carries `_has_non_organism_evidence` and `_is_skulls_and_bones`.  Those
keys are not among the fieldnames, and `csv.DictWriter` is constructed
with the default `extrasaction='raise'`, so `writerows` raises
`ValueError` on the first record of every non-empty record set: the
program errors out instead of emitting the claimed padded data rows. -/
theorem csv_writer_raises (data : List Row) (hne : data ≠ []) :
    writeCsv data
      = some (csvFieldnames (maxPhotosOf data), Except.error ()) := by
  cases data with
  | nil => exact absurd rfl hne
  | cons r rest =>
    have hdef : writeCsv (r :: rest)
        = some (csvFieldnames (maxPhotosOf (r :: rest)),
            writerows (csvFieldnames (maxPhotosOf (r :: rest)))
              ((r :: rest).map (rowDict (maxPhotosOf (r :: rest))))) := by
      unfold writeCsv
      rw [if_neg (List.cons_ne_nil r rest)]
    rw [hdef, List.map_cons,
      writerows_cons_error _ _ _ (dictToList_rowDict_error _ _)]

/-- Witness for C9: the writer raises already on the one-record set the
normalizer produces for a photo-less observation. -/
theorem csv_writer_raises_witness :
    writeCsv [mainRow ⟨"S".toList, "D".toList, none, none, false⟩
        (fun _ _ => false) "u".toList
        ⟨1, none, none, none, [], none, none, none, [], [], []⟩]
      = some (csvFieldnames 0, Except.error ()) := by
  exact csv_writer_raises
    [mainRow ⟨"S".toList, "D".toList, none, none, false⟩ (fun _ _ => false)
      "u".toList ⟨1, none, none, none, [], none, none, none, [], [], []⟩]
    (List.cons_ne_nil _ _)

/- ### C8: default checkbox state and review order -/

theorem licenseDisplay_ne_iff (licenses : List Str) :
    (licenseDisplay licenses ≠ "No license".toList)
      ↔ ((licenses.filter (fun lc => lc ≠ [])).dedup ≠ []
          ∧ List.intercalate ", ".toList
              ((licenses.filter (fun lc => lc ≠ [])).dedup)
              ≠ "No license".toList) := by
  unfold licenseDisplay
  by_cases h : (licenses.filter (fun lc => lc ≠ [])).dedup ≠ []
  · rw [if_pos h]
    exact ⟨fun hne => ⟨h, hne⟩, fun hc => hc.2⟩
  · rw [if_neg h]
    exact ⟨fun hne => absurd rfl hne, fun hc => absurd (not_not.mp h) hc.1⟩

theorem exists_nonempty_license_iff (licenses : List Str) :
    ((licenses.filter (fun lc => lc ≠ [])).dedup ≠ [])
      ↔ (∃ lc ∈ licenses, lc ≠ []) := by
  rw [Ne, List.dedup_eq_nil, List.filter_eq_nil_iff]
  constructor
  · intro h
    by_contra hc
    push_neg at hc
    exact h (fun a ha => by simp [hc a ha])
  · rintro ⟨lc, hm, hne⟩ hall
    have hx := hall lc hm
    simp at hx
    exact hne hx

theorem checkedLe_trans (a b c : HtmlObs) (hab : checkedLe a b = true)
    (hbc : checkedLe b c = true) : checkedLe a c = true := by
  unfold checkedLe at *
  cases h1 : defaultChecked a <;> cases h2 : defaultChecked b <;>
    cases h3 : defaultChecked c <;> simp_all

theorem checkedLe_total (a b : HtmlObs) :
    (checkedLe a b || checkedLe b a) = true := by
  unfold checkedLe
  cases defaultChecked a <;> cases defaultChecked b <;> rfl

/-- Counterexample to C8 as stated: the script derives checkedness from
the license DISPLAY string, so a record whose single non-empty license
code is the literal `No license` has a non-empty license, no flags and
research quality yet defaults to unchecked. -/
theorem checkbox_default_cex :
    (∃ lc ∈ (mainRow ⟨"S".toList, "D".toList, none, none, false⟩
        (fun _ _ => true) "u".toList
        ⟨9, none, none, none, [], none, some "research".toList, none, [], [],
          [⟨"p.png".toList, "No license".toList⟩]⟩).licenseList, lc ≠ [])
  ∧ (mainRow ⟨"S".toList, "D".toList, none, none, false⟩
      (fun _ _ => true) "u".toList
      ⟨9, none, none, none, [], none, some "research".toList, none, [], [],
        [⟨"p.png".toList, "No license".toList⟩]⟩).hasNonOrganismEvidence
      = false
  ∧ (mainRow ⟨"S".toList, "D".toList, none, none, false⟩
      (fun _ _ => true) "u".toList
      ⟨9, none, none, none, [], none, some "research".toList, none, [], [],
        [⟨"p.png".toList, "No license".toList⟩]⟩).isSkullsAndBones = false
  ∧ (mainRow ⟨"S".toList, "D".toList, none, none, false⟩
      (fun _ _ => true) "u".toList
      ⟨9, none, none, none, [], none, some "research".toList, none, [], [],
        [⟨"p.png".toList, "No license".toList⟩]⟩).quality_grade
      ≠ "needs_id".toList
  ∧ defaultChecked (htmlObsOfRow (mainRow
      ⟨"S".toList, "D".toList, none, none, false⟩
      (fun _ _ => true) "u".toList
      ⟨9, none, none, none, [], none, some "research".toList, none, [], [],
        [⟨"p.png".toList, "No license".toList⟩]⟩)) = false := by
  decide

/-- C8 (amended): a record's checkbox defaults to checked iff it has at
least one non-empty license whose deduplicated comma-joined display also
differs from the literal `No license`, AND neither the
non-organism-evidence nor the project flag is set, AND the quality grade
is not `needs_id`; a `needs_id` record is always unchecked; and the
default review order places every defaulted-checked record before every
defaulted-unchecked one. -/
theorem checkbox_default_amended (r : Row) :
    (defaultChecked (htmlObsOfRow r) = true
      ↔ ((∃ lc ∈ r.licenseList, lc ≠ [])
          ∧ List.intercalate ", ".toList
              ((r.licenseList.filter (fun lc => lc ≠ [])).dedup)
              ≠ "No license".toList
          ∧ r.hasNonOrganismEvidence = false
          ∧ r.isSkullsAndBones = false
          ∧ r.quality_grade ≠ "needs_id".toList))
  ∧ (r.quality_grade = "needs_id".toList →
      defaultChecked (htmlObsOfRow r) = false)
  ∧ (∀ l : List HtmlObs, List.Pairwise
      (fun a b => defaultChecked b = true → defaultChecked a = true)
      (reviewOrder l)) := by
  refine ⟨?_, ?_, ?_⟩
  · have h1 := licenseDisplay_ne_iff r.licenseList
    have h2 := exists_nonempty_license_iff r.licenseList
    simp only [defaultChecked, htmlObsOfRow, Bool.and_eq_true,
      decide_eq_true_eq, Bool.not_eq_true']
    rw [h1, h2]
    tauto
  · intro h
    simp [defaultChecked, htmlObsOfRow, h]
  · intro l
    have hs := List.sorted_mergeSort checkedLe_trans checkedLe_total l
    refine hs.imp ?_
    intro a b hab hb
    unfold checkedLe at hab
    rw [hb] at hab
    simpa using hab

/-- Witness for C8 (amended): a well-licensed research-grade record is
checked by default, and a concrete review list sorts checked-first. -/
theorem checkbox_default_witness :
    defaultChecked (htmlObsOfRow (mainRow
      ⟨"S".toList, "D".toList, none, none, false⟩
      (fun _ _ => true) "u".toList
      ⟨9, none, none, none, [], none, some "research".toList, none, [], [],
        [⟨"p.png".toList, "cc0".toList⟩]⟩)) = true
  ∧ List.Pairwise
      (fun a b => defaultChecked b = true → defaultChecked a = true)
      (reviewOrder
        [⟨"No license".toList, false, false, "research".toList⟩,
         ⟨"cc0".toList, false, false, "research".toList⟩]) := by
  have h := checkbox_default_amended (mainRow
    ⟨"S".toList, "D".toList, none, none, false⟩
    (fun _ _ => true) "u".toList
    ⟨9, none, none, none, [], none, some "research".toList, none, [], [],
      [⟨"p.png".toList, "cc0".toList⟩]⟩)
  exact ⟨h.1.mpr ⟨⟨"cc0".toList, by decide, by decide⟩, by decide, by decide,
    by decide, by decide⟩, h.2.2 _⟩

end INat
